import Mathlib

/-!
Verification of the Seshat VS Code extension process-orchestration core:
a shallow embedding of the commit-workflow state machine
(`SeshatController` in the extension entry point) and of the subprocess
transport (`SeshatRunner`), together with theorems checking the
specification's claims against these definitions.

Conventions of the embedding:
* JS strings become Lean `String`; `trim`, truthiness of strings, and the
  case-insensitive regular-expression test `/commit/i.test` are modelled by
  the executable helpers below.
* The panel, the runner and the notification API are effect sinks: each
  handler returns the updated session state together with the ordered list
  of calls it performs (`Eff`).
* Results of awaited interactions (modal dialog, quick pick, the manual
  `git commit` subprocess) are passed to the handler as parameters.
-/

namespace Seshat

/-- JS `String.prototype.trim`: drop leading and trailing whitespace. -/
def trimStr (s : String) : String :=
  ⟨((s.data.dropWhile Char.isWhitespace).reverse.dropWhile Char.isWhitespace).reverse⟩

/-- Substring occurrence test on character lists. -/
def containsSub (needle : List Char) : List Char → Bool
  | [] => needle.isEmpty
  | c :: rest => needle.isPrefixOf (c :: rest) || containsSub needle rest

/-- JS `/commit/i.test(s)`: case-insensitive search for the substring
"commit" (the pattern is lowercase ASCII, so case-insensitive matching is
search in the lowercased subject). -/
def containsCommitCI (s : String) : Bool :=
  containsSub "commit".data (s.data.map Char.toLower)

/-- Join a list of strings with newline separators. -/
def joinWithNewline : List String → String
  | [] => ""
  | [p] => p
  | p :: rest => p ++ "\n" ++ joinWithNewline rest

/-- JS `parts.filter(Boolean).join("\n")`: keep the truthy (non-empty)
strings and join them with newlines. -/
def joinNonEmpty (parts : List String) : String :=
  joinWithNewline (parts.filter (fun p => p != ""))

/-- JS `o || d` for an optional string `o`: the string when it is present
and non-empty (truthy), else the fallback `d`. -/
def orIfEmpty (o : Option String) (d : String) : String :=
  match o with
  | some t => if t = "" then d else t
  | none => d

/-- JSON values, as produced by `JSON.parse` on one stdout line. -/
inductive Json where
  | null
  | bool (b : Bool)
  | num (n : Int)
  | str (s : String)
  | arr (elems : List Json)
  | obj (fields : List (String × Json))

/-- JS `typeof v === "object" && v !== null && "event" in v`: JSON arrays
are objects but have no property named `event`; only an object literal with
an `event` key passes. -/
def hasEventKey : Json → Bool
  | .obj fields => fields.any (fun f => f.1 == "event")
  | _ => false

/-- The fallback wrapper built in `SeshatRunner.run`:
`{ event: "info", message: trimmed }`. -/
def infoJson (message : String) : Json :=
  .obj [("event", .str "info"), ("message", .str message)]

/-- The stdout line handler of `SeshatRunner.run` (seshatRunner.ts lines
41-66). `parsed` is the outcome of `JSON.parse` on the trimmed line
(`none` when parsing throws); the result is the event emitted for the
line, or `none` when the line produces no event. -/
def handleStdoutLine (parsed : Option Json) (line : String) : Option Json :=
  let trimmed := trimStr line
  if trimmed = "" then none
  else
    match parsed with
    | some j => if hasEventKey j = true then some j else some (infoJson trimmed)
    | none => some (infoJson trimmed)

/-- A Node.js child-process handle as `SeshatRunner` observes it.  The
`killed` field models `ChildProcess.killed`: it becomes true when `kill()`
successfully delivers a signal, before the `close` notification arrives. -/
structure ProcHandle where
  killed : Bool
deriving DecidableEq

/-- The mutable state of a `SeshatRunner`: `process` is the handle, `null`
before `run` and again after the `close` notification. -/
structure RunnerState where
  process : Option ProcHandle
deriving DecidableEq

/-- `SeshatRunner.isRunning` (seshatRunner.ts lines 102-104):
`this.process !== null && !this.process.killed`. -/
def RunnerState.isRunning (r : RunnerState) : Bool :=
  match r.process with
  | none => false
  | some p => !p.killed

/-- `SeshatRunner.kill` (seshatRunner.ts lines 96-100): when a handle
exists and is not yet killed, call `process.kill()`, which (in the
successful-delivery case modelled here) sets the handle's `killed` flag. -/
def RunnerState.kill (r : RunnerState) : RunnerState :=
  match r.process with
  | some p => if p.killed = false then { process := some { killed := true } } else r
  | none => r

/-- The `close` listener in `SeshatRunner.run` (seshatRunner.ts lines
79-83): the handle is released (`this.process = null`). -/
def RunnerState.onClose (_ : RunnerState) : RunnerState :=
  { process := none }

/-- Panel status values (`SeshatRunnerStatus`). -/
inductive RunnerStatus where
  | running
  | success
  | error
deriving DecidableEq

/-- Typed view of the decoded subprocess events the controller dispatches
on.  Payload shapes follow the spec's protocol table (the `types.ts`
module is not among the provided sources): `confirm_needed` carries an
optional boolean default, `choice_needed` an optional string default. -/
inductive SeshatEv where
  | messageReady (message : String)
  | confirmNeeded (message : String) (dflt : Option Bool)
  | choiceNeeded (message : String) (choices : List String) (dflt : Option String)
  | committed (summary : Option String)
  | cancelled (reason : Option String)
  | errorEv (message : Option String)
  | otherEv
deriving DecidableEq

/-- Observable calls a controller handler performs, in order: writes to the
subprocess (`respond`), panel instructions, notifications, the manual
`git commit` spawn, and runner cleanup. -/
inductive Eff where
  | postEvent (ev : SeshatEv)
  | respond (text : String)
  | showCommitActions (visible : Bool) (message : Option String)
  | setStatus (status : RunnerStatus) (text : String)
  | setCommitMessage (current original : String)
  | modalYesNo (message : String)
  | quickPick (labels : List String) (placeholder : String)
  | spawnGit (cwd : String) (message : String)
  | systemOutput (title : String) (output : String)
  | notifyInfo (text : String)
  | notifyWarning (text : String)
  | notifyError (text : String)
  | scheduleReset
  | cleanupRunner
deriving DecidableEq

/-- Operator response to the modal warning dialog of a generic
confirmation (`showWarningMessage` with Sim/Não). -/
inductive ModalChoice where
  | yes
  | no
  | dismissed
deriving DecidableEq

/-- Operator response to the quick-pick list of a `choice_needed` event. -/
inductive PickResult where
  | picked (label : String)
  | dismissed
deriving DecidableEq

/-- Outcome of the manual `git commit` subprocess (`runGitCommit`): exit
code 0 resolves with the captured streams; a non-zero exit or a spawn
error rejects with the captured streams and an error message. -/
inductive GitOutcome where
  | ok (stdout stderr : String)
  | failed (stdout stderr : String) (message : String)
deriving DecidableEq

/-- Message from the webview panel (`PanelMessageFromWebview`). -/
inductive PanelMsg where
  | confirm
  | cancel
  | messageEdited (message : String)
deriving DecidableEq

/-- The `SeshatController` session fields that drive the workflow. -/
structure SessionState where
  workspacePath : Option String
  suggestedMessage : String
  editedMessage : String
  hasMessageReady : Bool
  waitingForCommitConfirmation : Bool
  replacingWithManualGitCommit : Bool
  sawTerminalEvent : Bool
deriving DecidableEq

/-- Session state right after `startCommit` resets the fields. -/
def initialState (workspacePath : Option String) : SessionState :=
  { workspacePath
    suggestedMessage := ""
    editedMessage := ""
    hasMessageReady := false
    waitingForCommitConfirmation := false
    replacingWithManualGitCommit := false
    sawTerminalEvent := false }

/-- `handleMessageReady`. -/
def handleMessageReady (s : SessionState) (message : String) : SessionState × List Eff :=
  ({ s with suggestedMessage := message, editedMessage := message, hasMessageReady := true },
   [.setCommitMessage message message])

/-- `handleConfirmNeeded` (extension entry point, lines 242-265).  The
awaited modal result is the parameter `modal`; the JS truthiness test
`event.default ? "y" : "n"` is `dflt = some true`. -/
def handleConfirmNeeded (s : SessionState) (message : String) (dflt : Option Bool)
    (modal : ModalChoice) : SessionState × List Eff :=
  if s.hasMessageReady = true ∧ containsCommitCI message = true then
    ({ s with waitingForCommitConfirmation := true },
     [.showCommitActions true (some message)])
  else
    (s, [.modalYesNo message,
         .respond (match modal with
           | ModalChoice.yes => "y"
           | ModalChoice.no => "n"
           | ModalChoice.dismissed => if dflt = some true then "y" else "n")])

/-- `handleChoiceNeeded` (lines 267-290).  `event.choices[0]` is
`choices.headD ""` (the guard ensures the list is non-empty); the JS
truthiness test `if (event.default)` is false for an absent or empty
default. -/
def handleChoiceNeeded (s : SessionState) (message : String) (choices : List String)
    (dflt : Option String) (pick : PickResult) : SessionState × List Eff :=
  if choices = [] then (s, [])
  else
    match pick with
    | PickResult.picked label => (s, [.quickPick choices message, .respond label])
    | PickResult.dismissed =>
      match dflt with
      | some d =>
        if d = "" then (s, [.quickPick choices message, .respond (choices.headD "")])
        else (s, [.quickPick choices message, .respond d])
      | none => (s, [.quickPick choices message, .respond (choices.headD "")])

/-- `handleCommitted` (lines 292-300). -/
def handleCommitted (s : SessionState) (summary : Option String) : SessionState × List Eff :=
  ({ s with sawTerminalEvent := true, waitingForCommitConfirmation := false,
            hasMessageReady := false },
   [.showCommitActions false none,
    .setStatus .success (orIfEmpty summary "Commit realizado"),
    .notifyInfo ("Seshat: " ++ orIfEmpty summary "commit realizado com sucesso."),
    .scheduleReset])

/-- `handleCancelled` (lines 302-315): the notice is suppressed while the
manual fallback is in progress. -/
def handleCancelled (s : SessionState) (reason : Option String) : SessionState × List Eff :=
  let s1 := { s with sawTerminalEvent := true, waitingForCommitConfirmation := false,
                     hasMessageReady := false }
  if s1.replacingWithManualGitCommit = true then
    (s1, [.showCommitActions false none])
  else
    (s1, [.showCommitActions false none,
          .setStatus .error "Commit cancelado",
          .notifyWarning ("Seshat: commit cancelado (" ++ reason.getD "sem motivo informado" ++ ").")])

/-- The `error` arm of `handleSeshatEvent` (lines 223-229). -/
def handleErrorEvent (s : SessionState) (message : Option String) : SessionState × List Eff :=
  if s.replacingWithManualGitCommit = true then (s, [])
  else
    (s, [.setStatus .error (orIfEmpty message "Erro"),
         .notifyError ("Seshat: " ++ orIfEmpty message "erro inesperado.")])

/-- `handleRunnerClose` (lines 182-197). -/
def handleRunnerClose (s : SessionState) (code : Option Int) : SessionState × List Eff :=
  let statusEffs : List Eff :=
    if s.sawTerminalEvent = false ∧ s.replacingWithManualGitCommit = false then
      if code = some 0 then [.setStatus .success "Concluído"]
      else [.setStatus .error "Processo finalizado com erro"]
    else []
  ({ s with waitingForCommitConfirmation := false },
   statusEffs ++ [.showCommitActions false none, .cleanupRunner])

/-- Result of the synchronous prefix of `handleCommitConfirmation`:
updated state, effects performed so far, and whether the manual
`git commit` subprocess was spawned (in which case its continuation,
`gitCommitContinuation`, still has to run). -/
structure ConfirmStart where
  state : SessionState
  effs : List Eff
  spawned : Bool
deriving DecidableEq

/-- `handleCommitConfirmation` (lines 340-366) up to and including the
spawn performed inside `runGitCommit`: everything that executes before the
`await` yields. -/
def commitConfirmationStart (s : SessionState) : ConfirmStart :=
  let edited := trimStr s.editedMessage
  let original := trimStr s.suggestedMessage
  let s1 := { s with waitingForCommitConfirmation := false, hasMessageReady := false }
  if edited = "" ∨ edited = original then
    { state := s1, effs := [.showCommitActions false none, .respond "y"], spawned := false }
  else
    let s2 := { s1 with replacingWithManualGitCommit := true }
    match s.workspacePath with
    | none =>
      { state := { s2 with replacingWithManualGitCommit := false }
        effs := [.showCommitActions false none, .respond "n",
                 .setStatus .error "Workspace indisponível",
                 .notifyError "Seshat: não foi possível localizar o workspace para git commit."]
        spawned := false }
    | some cwd =>
      { state := s2
        effs := [.showCommitActions false none, .respond "n",
                 .setStatus .running "Aplicando mensagem editada com git commit",
                 .spawnGit cwd edited]
        spawned := true }

/-- The continuation of `handleCommitConfirmation` after the awaited
`runGitCommit` promise settles (lines 366-392): the try/catch body and the
`finally` block that clears the fallback flag. -/
def gitCommitContinuation (s : SessionState) (git : GitOutcome) : SessionState × List Eff :=
  match git with
  | GitOutcome.ok stdout stderr =>
    let output := joinNonEmpty [stdout, stderr]
    ({ s with sawTerminalEvent := true, replacingWithManualGitCommit := false },
     (if output = "" then [] else [.systemOutput "git commit" output])
       ++ [.setStatus .success "Commit realizado com mensagem editada",
           .notifyInfo "Seshat: commit realizado com a mensagem editada.",
           .scheduleReset])
  | GitOutcome.failed stdout stderr message =>
    let combined := joinNonEmpty [trimStr stdout, trimStr stderr]
    ({ s with replacingWithManualGitCommit := false },
     (if combined = "" then [] else [.systemOutput "git commit (erro)" combined])
       ++ [.setStatus .error "Falha ao executar git commit",
           .notifyError ("Seshat: falha no git commit (" ++ message ++ ").")])

/-- The whole of `handleCommitConfirmation` (lines 340-392), with the
outcome of the awaited manual `git commit` as a parameter. -/
def handleCommitConfirmation (s : SessionState) (git : GitOutcome) : SessionState × List Eff :=
  let st := commitConfirmationStart s
  if st.spawned = true then
    let cont := gitCommitContinuation st.state git
    (cont.1, st.effs ++ cont.2)
  else (st.state, st.effs)

/-- `handlePanelMessage` (lines 317-338), with the confirm arm run to
completion (`handleCommitConfirmation` with the git outcome supplied). -/
def handlePanelMessage (s : SessionState) (m : PanelMsg) (git : GitOutcome) :
    SessionState × List Eff :=
  match m with
  | PanelMsg.messageEdited message => ({ s with editedMessage := message }, [])
  | PanelMsg.cancel =>
    if s.waitingForCommitConfirmation = false then (s, [])
    else
      ({ s with waitingForCommitConfirmation := false, hasMessageReady := false },
       [.showCommitActions false none, .respond "n"])
  | PanelMsg.confirm =>
    if s.waitingForCommitConfirmation = false then (s, [])
    else handleCommitConfirmation s git

/-- `handlePanelMessage` up to the point where the confirm arm starts
awaiting the manual `git commit`; used by the interleaving step machine. -/
def panelMessageStart (s : SessionState) (m : PanelMsg) : SessionState × List Eff :=
  match m with
  | PanelMsg.messageEdited message => ({ s with editedMessage := message }, [])
  | PanelMsg.cancel =>
    if s.waitingForCommitConfirmation = false then (s, [])
    else
      ({ s with waitingForCommitConfirmation := false, hasMessageReady := false },
       [.showCommitActions false none, .respond "n"])
  | PanelMsg.confirm =>
    if s.waitingForCommitConfirmation = false then (s, [])
    else
      let st := commitConfirmationStart s
      (st.state, st.effs)

/-- Results of the operator interactions a single event dispatch may
await. -/
structure OperatorEnv where
  modal : ModalChoice
  pick : PickResult
deriving DecidableEq

/-- `handleSeshatEvent` (lines 199-233): forward the event to the panel,
then dispatch on its kind. -/
def handleSeshatEvent (s : SessionState) (ev : SeshatEv) (env : OperatorEnv) :
    SessionState × List Eff :=
  let r :=
    match ev with
    | SeshatEv.messageReady message => handleMessageReady s message
    | SeshatEv.confirmNeeded message dflt => handleConfirmNeeded s message dflt env.modal
    | SeshatEv.choiceNeeded message choices dflt => handleChoiceNeeded s message choices dflt env.pick
    | SeshatEv.committed summary => handleCommitted s summary
    | SeshatEv.cancelled reason => handleCancelled s reason
    | SeshatEv.errorEv message => handleErrorEvent s message
    | SeshatEv.otherEv => (s, [])
  (r.1, Eff.postEvent ev :: r.2)

/-- One unit of work the single-threaded controller executes to
completion: an incoming subprocess event (with the results of any operator
interaction it awaits), a panel message (a confirm runs up to the manual
`git commit` await), the settlement of an awaited manual `git commit`, or
the runner `close` notification. -/
inductive Input where
  | runnerEvent (ev : SeshatEv) (env : OperatorEnv)
  | panelMessage (m : PanelMsg)
  | gitDone (outcome : GitOutcome)
  | runnerClosed (code : Option Int)
deriving DecidableEq

/-- The controller step relation over `Input`. -/
def step (s : SessionState) (i : Input) : SessionState × List Eff :=
  match i with
  | Input.runnerEvent ev env => handleSeshatEvent s ev env
  | Input.panelMessage m => panelMessageStart s m
  | Input.gitDone outcome => gitCommitContinuation s outcome
  | Input.runnerClosed code => handleRunnerClose s code

/-- Fold the step relation over a list of inputs. -/
def runInputs (s : SessionState) (inputs : List Input) : SessionState :=
  inputs.foldl (fun s i => (step s i).1) s

/-- Whether an input delivers a `message_ready` event. -/
def isMessageReadyInput : Input → Bool
  | Input.runnerEvent (SeshatEv.messageReady _) _ => true
  | _ => false

/-- An input sequence in which the external tool never delivers
`message_ready` while a manual fallback is in progress. -/
def okRun : SessionState → List Input → Prop
  | _, [] => True
  | s, i :: rest =>
    (isMessageReadyInput i = true → s.replacingWithManualGitCommit = false) ∧
    okRun (step s i).1 rest

/-- Projection of an effect list onto the operations addressed at
subprocesses: writes to the tool's stdin and manual `git commit` spawns. -/
def subprocessOps (effs : List Eff) : List Eff :=
  effs.filter (fun e =>
    match e with
    | Eff.respond _ => true
    | Eff.spawnGit _ _ => true
    | _ => false)

/-- Projection of an effect list onto the panel status assignments, in
order. -/
def statusSets (effs : List Eff) : List (RunnerStatus × String) :=
  effs.filterMap (fun e =>
    match e with
    | Eff.setStatus st text => some (st, text)
    | _ => none)

/-- Claim C1: for every incoming confirm_needed event, if `hasMessageReady`
is true and the prompt text contains the case-insensitive substring
"commit", the orchestrator sets `awaitingConfirmation`, reveals the
commit-action controls with the prompt text and sends no automatic
response; otherwise it presents a Yes/No modal and responds "y" on Yes,
"n" on No, and on dismissal "y" exactly when the event's declared default
is true (also when no default is declared).  The discriminating default
test is the wire-level field the controller reads. -/
theorem confirmNeeded_commit_classification (s : SessionState) (message : String)
    (dflt : Option Bool) (modal : ModalChoice) :
    (s.hasMessageReady = true ∧ containsCommitCI message = true →
      handleConfirmNeeded s message dflt modal =
        ({ s with waitingForCommitConfirmation := true },
         [Eff.showCommitActions true (some message)]))
    ∧ (¬(s.hasMessageReady = true ∧ containsCommitCI message = true) →
      handleConfirmNeeded s message dflt modal =
        (s, [Eff.modalYesNo message,
             Eff.respond (match modal with
               | ModalChoice.yes => "y"
               | ModalChoice.no => "n"
               | ModalChoice.dismissed => if dflt = some true then "y" else "n")])) := by
  unfold handleConfirmNeeded
  constructor
  · intro h; rw [if_pos h]
  · intro h; rw [if_neg h]

theorem confirmNeeded_commit_classification_witness :
    handleConfirmNeeded { initialState none with hasMessageReady := true }
        "Confirm commit?" none ModalChoice.dismissed =
      ({ initialState none with hasMessageReady := true, waitingForCommitConfirmation := true },
       [Eff.showCommitActions true (some "Confirm commit?")])
    ∧ handleConfirmNeeded (initialState none) "Overwrite file?" none ModalChoice.dismissed =
      (initialState none, [Eff.modalYesNo "Overwrite file?", Eff.respond "n"]) :=
  ⟨(confirmNeeded_commit_classification _ _ _ _).1 ⟨rfl, by decide⟩,
   (confirmNeeded_commit_classification _ _ _ _).2 (by decide)⟩

/-- Claim C6: for every stdout line, a whitespace-only line produces no
event; a line parsing to a JSON object carrying the discriminator field
(the wire key named `event`, which the spec's data model calls `kind`) is
emitted unmodified; every other non-blank line (parse failure, non-object
JSON, or an object without the discriminator) is emitted as an `info`
event whose message is the raw trimmed line. -/
theorem stdoutLine_decoding (parsed : Option Json) (line : String) :
    (trimStr line = "" → handleStdoutLine parsed line = none)
    ∧ (trimStr line ≠ "" → ∀ j, parsed = some j → hasEventKey j = true →
        handleStdoutLine parsed line = some j)
    ∧ (trimStr line ≠ "" → parsed = none →
        handleStdoutLine parsed line = some (infoJson (trimStr line)))
    ∧ (trimStr line ≠ "" → ∀ j, parsed = some j → hasEventKey j = false →
        handleStdoutLine parsed line = some (infoJson (trimStr line))) := by
  unfold handleStdoutLine
  refine ⟨?_, ?_, ?_, ?_⟩
  · intro h; simp [h]
  · intro h j hj hk; subst hj; simp [h, hk]
  · intro h hp; subst hp; simp [h]
  · intro h j hj hk; subst hj; simp [h, hk]

theorem stdoutLine_decoding_witness :
    handleStdoutLine (some (Json.obj [("event", Json.str "step"), ("message", Json.str "oi")]))
        "  a step line  " =
      some (Json.obj [("event", Json.str "step"), ("message", Json.str "oi")])
    ∧ handleStdoutLine none "plain text" = some (infoJson "plain text")
    ∧ handleStdoutLine (some (Json.num 7)) "7" = some (infoJson "7")
    ∧ handleStdoutLine none "   " = none :=
  ⟨(stdoutLine_decoding _ _).2.1 (by decide) _ rfl rfl,
   (stdoutLine_decoding _ _).2.2.1 (by decide) rfl,
   (stdoutLine_decoding _ _).2.2.2 (by decide) _ rfl rfl,
   (stdoutLine_decoding _ _).1 (by decide)⟩

/-- Claim C7 counterexample: after `kill()` succeeds and before the close
notification arrives, the handle still exists (`process.isSome`), yet
`isRunning()` already returns false — contradicting the claim that it
still returns true there. -/
theorem isRunning_after_kill_cex :
    (RunnerState.kill { process := some { killed := false } }).process.isSome = true
    ∧ (RunnerState.kill { process := some { killed := false } }).isRunning = false := by
  decide

/-- Claim C7 amended: `isRunning()` returns true iff a subprocess handle
exists on which no successful `kill()` has been requested; the handle is
released on the close notification, so `isRunning()` is false after close,
and it is already false right after a `kill()` request, before the close
notification arrives. -/
theorem isRunning_characterisation (p : ProcHandle) (r : RunnerState) :
    ((RunnerState.onClose r).isRunning = false)
    ∧ (RunnerState.isRunning { process := none } = false)
    ∧ (p.killed = false → RunnerState.isRunning { process := some p } = true)
    ∧ ((RunnerState.kill { process := some p }).isRunning = false) := by
  refine ⟨rfl, rfl, ?_, ?_⟩
  · intro h; simp [RunnerState.isRunning, h]
  · cases hp : p.killed <;> simp [RunnerState.kill, RunnerState.isRunning, hp]

theorem isRunning_characterisation_witness :
    RunnerState.isRunning { process := some { killed := false } } = true :=
  (isRunning_characterisation { killed := false } { process := none }).2.2.1 rfl

/-- Claim C8 counterexample: a choice_needed event with choices
["a", "b"] and a declared (but empty) default "", dismissed without a
selection, is answered with the first choice "a", not with the declared
default — contradicting the claim that dismissal answers with the
declared default whenever one is present. -/
theorem choiceDefault_empty_cex :
    (handleChoiceNeeded (initialState none) "Pick one" ["a", "b"] (some "")
        PickResult.dismissed).2 =
      [Eff.quickPick ["a", "b"] "Pick one", Eff.respond "a"]
    ∧ Eff.respond "" ∉
        (handleChoiceNeeded (initialState none) "Pick one" ["a", "b"] (some "")
          PickResult.dismissed).2 := by
  decide

/-- Claim C8 amended: for every incoming choice_needed event, an event
carrying no choices is ignored with no response; otherwise a single-select
list of exactly the provided choices is presented and the selected text is
the response on selection; on dismissal the response is the event's
declared default if it is present and non-empty, else the first offered
choice (also when the declared default is the empty string). -/
theorem choiceNeeded_behaviour (s : SessionState) (message : String) (choices : List String)
    (dflt : Option String) (pick : PickResult) :
    (choices = [] → handleChoiceNeeded s message choices dflt pick = (s, []))
    ∧ (choices ≠ [] → ∀ label, pick = PickResult.picked label →
        handleChoiceNeeded s message choices dflt pick =
          (s, [Eff.quickPick choices message, Eff.respond label]))
    ∧ (choices ≠ [] → pick = PickResult.dismissed → ∀ d, dflt = some d → d ≠ "" →
        handleChoiceNeeded s message choices dflt pick =
          (s, [Eff.quickPick choices message, Eff.respond d]))
    ∧ (choices ≠ [] → pick = PickResult.dismissed → (dflt = none ∨ dflt = some "") →
        handleChoiceNeeded s message choices dflt pick =
          (s, [Eff.quickPick choices message, Eff.respond (choices.headD "")])) := by
  unfold handleChoiceNeeded
  refine ⟨?_, ?_, ?_, ?_⟩
  · intro h; rw [if_pos h]
  · intro h label hl; subst hl; rw [if_neg h]
  · intro h hp d hd hne; subst hp; subst hd; rw [if_neg h]; simp [hne]
  · intro h hp hd; subst hp; rw [if_neg h]
    rcases hd with hd | hd <;> subst hd <;> simp

theorem choiceNeeded_behaviour_witness :
    handleChoiceNeeded (initialState none) "Pick" ["a", "b"] none PickResult.dismissed =
      (initialState none, [Eff.quickPick ["a", "b"] "Pick", Eff.respond "a"])
    ∧ handleChoiceNeeded (initialState none) "Pick" ["a", "b"] (some "b")
        PickResult.dismissed =
      (initialState none, [Eff.quickPick ["a", "b"] "Pick", Eff.respond "b"]) :=
  ⟨(choiceNeeded_behaviour _ _ _ _ _).2.2.2 (by decide) rfl (Or.inl rfl),
   (choiceNeeded_behaviour _ _ _ _ _).2.2.1 (by decide) rfl "b" rfl (by decide)⟩

/-- Claim C10: operator confirm or cancel actions arriving while
`awaitingConfirmation` is false leave the whole session state unchanged
and write nothing to the subprocess, whereas an operator messageEdited
action updates `editedMessage` in every state. -/
theorem panelMessage_frame (s : SessionState) (git : GitOutcome) :
    (s.waitingForCommitConfirmation = false →
      handlePanelMessage s PanelMsg.confirm git = (s, [])
      ∧ handlePanelMessage s PanelMsg.cancel git = (s, []))
    ∧ (∀ m, handlePanelMessage s (PanelMsg.messageEdited m) git =
        ({ s with editedMessage := m }, [])) := by
  constructor
  · intro h
    constructor <;> simp [handlePanelMessage, h]
  · intro m; rfl

theorem panelMessage_frame_witness :
    handlePanelMessage (initialState none) PanelMsg.confirm (GitOutcome.ok "" "") =
      (initialState none, []) :=
  ((panelMessage_frame (initialState none) (GitOutcome.ok "" "")).1 rfl).1

/-- Helper: under the fallback conditions (awaiting confirmation, edited
message trimmed non-empty and different from the suggested one, workspace
known), an operator confirm runs the decline-and-manual-commit path. -/
lemma panelConfirm_spawn_eq (s : SessionState) (ws : String) (git : GitOutcome)
    (hw : s.waitingForCommitConfirmation = true)
    (hne : trimStr s.editedMessage ≠ "")
    (hdiff : trimStr s.editedMessage ≠ trimStr s.suggestedMessage)
    (hws : s.workspacePath = some ws) :
    handlePanelMessage s PanelMsg.confirm git =
      ((gitCommitContinuation
          { s with waitingForCommitConfirmation := false, hasMessageReady := false,
                   replacingWithManualGitCommit := true } git).1,
       [Eff.showCommitActions false none, Eff.respond "n",
        Eff.setStatus RunnerStatus.running "Aplicando mensagem editada com git commit",
        Eff.spawnGit ws (trimStr s.editedMessage)]
        ++ (gitCommitContinuation
            { s with waitingForCommitConfirmation := false, hasMessageReady := false,
                     replacingWithManualGitCommit := true } git).2) := by
  have hcond : ¬(trimStr s.editedMessage = "" ∨
      trimStr s.editedMessage = trimStr s.suggestedMessage) := by
    rintro (h | h)
    · exact hne h
    · exact hdiff h
  simp only [handlePanelMessage, hw]
  simp only [handleCommitConfirmation, commitConfirmationStart]
  rw [if_neg hcond]
  simp [hws]

/-- Claim C2: for every operator confirm received while awaiting
confirmation, if the trimmed edited message is non-empty and differs from
the trimmed suggested message, the subprocess-directed operations are
exactly one response "n" followed by exactly one manual `git commit`
spawn with the edited message in the workspace root; on exit code 0 the
session reaches terminal success (last status success, `sawTerminalEvent`
set, fallback flag cleared, operator notified, reset scheduled) with no
further write to the original subprocess; on failure the combined captured
output is surfaced and the status is set to error. -/
theorem manualFallback_behaviour (s : SessionState) (ws : String) (git : GitOutcome)
    (hw : s.waitingForCommitConfirmation = true)
    (hne : trimStr s.editedMessage ≠ "")
    (hdiff : trimStr s.editedMessage ≠ trimStr s.suggestedMessage)
    (hws : s.workspacePath = some ws) :
    subprocessOps (handlePanelMessage s PanelMsg.confirm git).2 =
      [Eff.respond "n", Eff.spawnGit ws (trimStr s.editedMessage)]
    ∧ (∀ o e, git = GitOutcome.ok o e →
        (handlePanelMessage s PanelMsg.confirm git).1.sawTerminalEvent = true
        ∧ (handlePanelMessage s PanelMsg.confirm git).1.replacingWithManualGitCommit = false
        ∧ statusSets (handlePanelMessage s PanelMsg.confirm git).2 =
            [(RunnerStatus.running, "Aplicando mensagem editada com git commit"),
             (RunnerStatus.success, "Commit realizado com mensagem editada")]
        ∧ Eff.notifyInfo "Seshat: commit realizado com a mensagem editada."
            ∈ (handlePanelMessage s PanelMsg.confirm git).2
        ∧ Eff.scheduleReset ∈ (handlePanelMessage s PanelMsg.confirm git).2)
    ∧ (∀ o e msg, git = GitOutcome.failed o e msg →
        statusSets (handlePanelMessage s PanelMsg.confirm git).2 =
          [(RunnerStatus.running, "Aplicando mensagem editada com git commit"),
           (RunnerStatus.error, "Falha ao executar git commit")]
        ∧ (joinNonEmpty [trimStr o, trimStr e] ≠ "" →
            Eff.systemOutput "git commit (erro)" (joinNonEmpty [trimStr o, trimStr e])
              ∈ (handlePanelMessage s PanelMsg.confirm git).2)) := by
  rw [panelConfirm_spawn_eq s ws git hw hne hdiff hws]
  refine ⟨?_, ?_, ?_⟩
  · rcases git with ⟨o, e⟩ | ⟨o, e, msg⟩ <;>
      simp only [gitCommitContinuation, subprocessOps] <;>
      split <;> simp [List.filter_append]
  · rintro o e rfl
    refine ⟨rfl, rfl, ?_, ?_, ?_⟩
    · simp only [gitCommitContinuation, statusSets]
      split <;> simp [List.filterMap_append]
    · simp [gitCommitContinuation]
    · simp [gitCommitContinuation]
  · rintro o e msg rfl
    constructor
    · simp only [gitCommitContinuation, statusSets]
      split <;> simp [List.filterMap_append]
    · intro hco
      simp [gitCommitContinuation, hco]

theorem manualFallback_behaviour_witness :
    subprocessOps (handlePanelMessage
        { workspacePath := some "/w", suggestedMessage := "fix: x", editedMessage := "feat: y",
          hasMessageReady := false, waitingForCommitConfirmation := true,
          replacingWithManualGitCommit := false, sawTerminalEvent := false }
        PanelMsg.confirm (GitOutcome.ok "ok" "")).2 =
      [Eff.respond "n", Eff.spawnGit "/w" "feat: y"] := by
  have h := (manualFallback_behaviour
      { workspacePath := some "/w", suggestedMessage := "fix: x", editedMessage := "feat: y",
        hasMessageReady := false, waitingForCommitConfirmation := true,
        replacingWithManualGitCommit := false, sawTerminalEvent := false }
      "/w" (GitOutcome.ok "ok" "") rfl (by decide) (by decide) rfl).1
  have ht : trimStr "feat: y" = "feat: y" := by decide
  rw [ht] at h
  exact h

/-- Claim C3: for every operator confirm received while awaiting
confirmation, if the trimmed edited message equals the trimmed suggested
message or is empty, the orchestrator writes exactly one response "y" and
spawns no manual-commit subprocess. -/
theorem confirmUnedited_behaviour (s : SessionState) (git : GitOutcome)
    (hw : s.waitingForCommitConfirmation = true)
    (h : trimStr s.editedMessage = trimStr s.suggestedMessage ∨ trimStr s.editedMessage = "") :
    (handlePanelMessage s PanelMsg.confirm git).2 =
      [Eff.showCommitActions false none, Eff.respond "y"]
    ∧ subprocessOps (handlePanelMessage s PanelMsg.confirm git).2 = [Eff.respond "y"] := by
  have heq : handlePanelMessage s PanelMsg.confirm git =
      ({ s with waitingForCommitConfirmation := false, hasMessageReady := false },
       [Eff.showCommitActions false none, Eff.respond "y"]) := by
    simp only [handlePanelMessage, hw]
    simp only [handleCommitConfirmation, commitConfirmationStart]
    rw [if_pos h.symm]
    simp
  rw [heq]
  exact ⟨rfl, by simp [subprocessOps]⟩

theorem confirmUnedited_behaviour_witness :
    (handlePanelMessage
        { workspacePath := some "/w", suggestedMessage := "fix: x", editedMessage := " fix: x ",
          hasMessageReady := true, waitingForCommitConfirmation := true,
          replacingWithManualGitCommit := false, sawTerminalEvent := false }
        PanelMsg.confirm (GitOutcome.ok "" "")).2 =
      [Eff.showCommitActions false none, Eff.respond "y"] :=
  (confirmUnedited_behaviour _ (GitOutcome.ok "" "") rfl (Or.inl (by decide))).1

/-- Claim C4: in every outcome of the manual fallback — subprocess
success, subprocess failure or spawn exception (both rejections of
`runGitCommit`), or abort because the workspace root is unknown — the
`manualFallbackInProgress` flag is false once the confirmation handling
completes; the git continuation clears it unconditionally. -/
theorem fallbackFlag_always_cleared (s : SessionState) (git : GitOutcome)
    (h : s.replacingWithManualGitCommit = false) :
    (handleCommitConfirmation s git).1.replacingWithManualGitCommit = false
    ∧ (∀ s2 g2, (gitCommitContinuation s2 g2).1.replacingWithManualGitCommit = false) := by
  constructor
  · unfold handleCommitConfirmation commitConfirmationStart
    by_cases hc : trimStr s.editedMessage = "" ∨ trimStr s.editedMessage = trimStr s.suggestedMessage
    · simp [hc, h]
    · rcases hws : s.workspacePath with _ | ws
      · simp [hc, hws]
      · rcases git with ⟨o, e⟩ | ⟨o, e, m⟩ <;> simp [hc, hws, gitCommitContinuation]
  · intro s2 g2
    rcases g2 with ⟨o, e⟩ | ⟨o, e, m⟩ <;> simp [gitCommitContinuation]

theorem fallbackFlag_always_cleared_witness :
    (handleCommitConfirmation
        { workspacePath := none, suggestedMessage := "a", editedMessage := "b",
          hasMessageReady := true, waitingForCommitConfirmation := true,
          replacingWithManualGitCommit := false, sawTerminalEvent := false }
        (GitOutcome.failed "" "boom" "git commit finalizou com código 1")).1.replacingWithManualGitCommit = false :=
  (fallbackFlag_always_cleared _ _ rfl).1

/-- Claim C5: when the tool subprocess closes with no terminal event seen
and no manual fallback in progress, the status becomes success exactly
when the exit code is zero and error otherwise; a close during manual
fallback sets no status at all; in all cases the commit-action controls
are hidden, `awaitingConfirmation` is cleared and the runner is
released. -/
theorem runnerClose_behaviour (s : SessionState) (code : Option Int) :
    (s.sawTerminalEvent = false ∧ s.replacingWithManualGitCommit = false →
      statusSets (handleRunnerClose s code).2 =
        (if code = some 0 then [(RunnerStatus.success, "Concluído")]
         else [(RunnerStatus.error, "Processo finalizado com erro")]))
    ∧ (s.replacingWithManualGitCommit = true →
        statusSets (handleRunnerClose s code).2 = [])
    ∧ Eff.showCommitActions false none ∈ (handleRunnerClose s code).2
    ∧ (handleRunnerClose s code).1.waitingForCommitConfirmation = false
    ∧ Eff.cleanupRunner ∈ (handleRunnerClose s code).2 := by
  unfold handleRunnerClose
  refine ⟨?_, ?_, ?_, ?_, ?_⟩
  · intro h
    rw [if_pos h]
    split <;> simp [statusSets]
  · intro h
    have hn : ¬(s.sawTerminalEvent = false ∧ s.replacingWithManualGitCommit = false) := by
      rintro ⟨_, h2⟩
      rw [h] at h2
      exact absurd h2 (by decide)
    rw [if_neg hn]
    simp [statusSets]
  · split <;> simp
  · rfl
  · split <;> simp

theorem runnerClose_behaviour_witness :
    statusSets (handleRunnerClose (initialState (some "/w")) (some 0)).2 =
      [(RunnerStatus.success, "Concluído")]
    ∧ statusSets (handleRunnerClose (initialState (some "/w")) (some 1)).2 =
      [(RunnerStatus.error, "Processo finalizado com erro")]
    ∧ statusSets (handleRunnerClose
        { initialState (some "/w") with replacingWithManualGitCommit := true } (some 0)).2 = [] :=
  ⟨by simpa using (runnerClose_behaviour (initialState (some "/w")) (some 0)).1 ⟨rfl, rfl⟩,
   by simpa using (runnerClose_behaviour (initialState (some "/w")) (some 1)).1 ⟨rfl, rfl⟩,
   (runnerClose_behaviour _ (some 0)).2.1 rfl⟩

/-- Helper: `handleChoiceNeeded` never changes the session state. -/
lemma choiceNeeded_state (s : SessionState) (m : String) (cs : List String)
    (d : Option String) (p : PickResult) : (handleChoiceNeeded s m cs d p).1 = s := by
  unfold handleChoiceNeeded
  split
  · rfl
  · cases p with
    | picked l => rfl
    | dismissed =>
      cases d with
      | some x => dsimp only; split <;> rfl
      | none => rfl

/-- The combination of session flags the spec declares impossible, plus
the auxiliary fact making it inductive: while a manual fallback is in
progress no proposed message is pending. -/
def FlagInv (s : SessionState) : Prop :=
  (s.replacingWithManualGitCommit = true → s.hasMessageReady = false)
  ∧ ¬(s.waitingForCommitConfirmation = true ∧ s.replacingWithManualGitCommit = true)

/-- Helper: each controller step preserves `FlagInv`, provided no
`message_ready` event is delivered while a manual fallback is in
progress. -/
lemma step_preserves_FlagInv (s : SessionState) (i : Input)
    (hInv : FlagInv s)
    (hok : isMessageReadyInput i = true → s.replacingWithManualGitCommit = false) :
    FlagInv (step s i).1 := by
  obtain ⟨hJ, hI⟩ := hInv
  cases i with
  | runnerEvent ev env =>
    cases ev with
    | messageReady m =>
      have hr : s.replacingWithManualGitCommit = false := hok rfl
      simp [FlagInv, step, handleSeshatEvent, handleMessageReady, hr]
    | confirmNeeded m d =>
      by_cases hc : s.hasMessageReady = true ∧ containsCommitCI m = true
      · have hr : s.replacingWithManualGitCommit = false := by
          cases hrep : s.replacingWithManualGitCommit
          · rfl
          · exact absurd (hJ hrep) (by simp [hc.1])
        simp [FlagInv, step, handleSeshatEvent, handleConfirmNeeded, hc, hr]
      · simp only [step, handleSeshatEvent, handleConfirmNeeded, if_neg hc]
        exact ⟨hJ, hI⟩
    | choiceNeeded m cs d =>
      simp only [step, handleSeshatEvent]
      rw [choiceNeeded_state]
      exact ⟨hJ, hI⟩
    | committed sm =>
      simp [FlagInv, step, handleSeshatEvent, handleCommitted]
    | cancelled r =>
      simp only [step, handleSeshatEvent, handleCancelled]
      split <;> simp [FlagInv]
    | errorEv m =>
      simp only [step, handleSeshatEvent, handleErrorEvent]
      split
      · exact ⟨hJ, hI⟩
      · exact ⟨hJ, hI⟩
    | otherEv =>
      exact ⟨hJ, hI⟩
  | panelMessage m =>
    cases m with
    | messageEdited t =>
      simp only [step, panelMessageStart]
      exact ⟨hJ, hI⟩
    | cancel =>
      simp only [step, panelMessageStart]
      split
      · exact ⟨hJ, hI⟩
      · simp [FlagInv]
    | confirm =>
      simp only [step, panelMessageStart]
      split
      · exact ⟨hJ, hI⟩
      · unfold commitConfirmationStart
        by_cases hc : trimStr s.editedMessage = "" ∨ trimStr s.editedMessage = trimStr s.suggestedMessage
        · simp [FlagInv, hc]
        · rcases hws : s.workspacePath with _ | w
          · simp [FlagInv, hc, hws]
          · simp [FlagInv, hc, hws]
  | gitDone outcome =>
    cases outcome with
    | ok o e => simp [FlagInv, step, gitCommitContinuation]
    | failed o e m => simp [FlagInv, step, gitCommitContinuation]
  | runnerClosed code =>
    refine ⟨?_, ?_⟩
    · intro hrep
      have hr : s.replacingWithManualGitCommit = true := hrep
      exact hJ hr
    · rintro ⟨hw, -⟩
      simp [step, handleRunnerClose] at hw

/-- Helper: `FlagInv` holds along any restricted run. -/
lemma runInputs_FlagInv : ∀ (inputs : List Input) (s : SessionState),
    FlagInv s → okRun s inputs → FlagInv (runInputs s inputs)
  | [], _, h, _ => h
  | i :: rest, s, h, hok =>
    runInputs_FlagInv rest (step s i).1 (step_preserves_FlagInv s i h hok.1) hok.2

/-- Claim C9 counterexample: a concrete reachable sequence — commit
prompt confirmed with an edited message (entering the manual fallback),
then the tool emits another message_ready followed by another
commit-wording confirm_needed before the manual git commit settles —
leaves `awaitingConfirmation` and `manualFallbackInProgress`
simultaneously true, contradicting the claimed invariant over arbitrary
event sequences. -/
theorem flags_coincide_cex :
    (runInputs (initialState (some "/w"))
      [Input.runnerEvent (SeshatEv.messageReady "fix: x") ⟨ModalChoice.dismissed, PickResult.dismissed⟩,
       Input.runnerEvent (SeshatEv.confirmNeeded "Confirm commit?" none) ⟨ModalChoice.dismissed, PickResult.dismissed⟩,
       Input.panelMessage (PanelMsg.messageEdited "feat: y"),
       Input.panelMessage PanelMsg.confirm,
       Input.runnerEvent (SeshatEv.messageReady "fix: x2") ⟨ModalChoice.dismissed, PickResult.dismissed⟩,
       Input.runnerEvent (SeshatEv.confirmNeeded "Proceed with commit?" none) ⟨ModalChoice.dismissed, PickResult.dismissed⟩]).waitingForCommitConfirmation = true
    ∧ (runInputs (initialState (some "/w"))
      [Input.runnerEvent (SeshatEv.messageReady "fix: x") ⟨ModalChoice.dismissed, PickResult.dismissed⟩,
       Input.runnerEvent (SeshatEv.confirmNeeded "Confirm commit?" none) ⟨ModalChoice.dismissed, PickResult.dismissed⟩,
       Input.panelMessage (PanelMsg.messageEdited "feat: y"),
       Input.panelMessage PanelMsg.confirm,
       Input.runnerEvent (SeshatEv.messageReady "fix: x2") ⟨ModalChoice.dismissed, PickResult.dismissed⟩,
       Input.runnerEvent (SeshatEv.confirmNeeded "Proceed with commit?" none) ⟨ModalChoice.dismissed, PickResult.dismissed⟩]).replacingWithManualGitCommit = true := by
  decide

/-- Claim C9 amended: in every state reachable from a fresh session by
events, operator actions and process closes, provided the external tool
delivers no message_ready event while a manual fallback is in progress,
the flags `awaitingConfirmation` and `manualFallbackInProgress` are never
simultaneously true. -/
theorem flags_exclusive_restricted (ws : Option String) (inputs : List Input)
    (h : okRun (initialState ws) inputs) :
    ¬((runInputs (initialState ws) inputs).waitingForCommitConfirmation = true
      ∧ (runInputs (initialState ws) inputs).replacingWithManualGitCommit = true) :=
  (runInputs_FlagInv inputs (initialState ws)
    ⟨fun hrep => Bool.noConfusion hrep, fun hp => Bool.noConfusion hp.1⟩ h).2

theorem flags_exclusive_restricted_witness :
    ¬((runInputs (initialState (some "/w")) []).waitingForCommitConfirmation = true
      ∧ (runInputs (initialState (some "/w")) []).replacingWithManualGitCommit = true) :=
  flags_exclusive_restricted (some "/w") [] True.intro

end Seshat
